import Mathlib

/-
Verification of the frame-to-image assembly core of the sane package
(image.go): the frame assembler (Conn.loadImage), the pixel decoder
(Image.Bounds, Image.ColorModel, Image.At) and the three acquisition
strategies (Conn.ReadImage, Conn.ReadAvailableImages, Conn.ContinuousRead).

The connection is external to the core; we embed it as the finite list of
outcomes its successive ReadFrame calls produce.  An exhausted list stands
for a ReadFrame call that never returns, so an operation result of `none`
models divergence (or, for the pixel decoder, a nil-pointer dereference).
-/

namespace Sane

/-- Modelled from the spec: the flat enumeration of error kinds of section 7;
the error values themselves (ErrEmpty and friends, and the fmt.Errorf value
for an unknown frame format) are declared outside image.go. -/
inductive Err where
  | empty
  | cancelled
  | busy
  | invalid
  | jammed
  | coverOpen
  | ioFailure
  | noMem
  | denied
  | unknownFrameFormat (format : Nat)
  | transport (code : Nat)
  deriving DecidableEq, Repr

/-- Modelled from the spec: the frame format code FrameGray (the five
recognized format constants are declared outside image.go; they are distinct
numeric codes, and any other value is unrecognized). -/
def frameGray : Nat := 0

/-- Modelled from the spec: the frame format code FrameRgb. -/
def frameRgb : Nat := 1

/-- Modelled from the spec: the frame format code FrameRed. -/
def frameRed : Nat := 2

/-- Modelled from the spec: the frame format code FrameGreen. -/
def frameGreen : Nat := 3

/-- Modelled from the spec: the frame format code FrameBlue. -/
def frameBlue : Nat := 4

/-- Modelled from the spec: a Frame (section 3) carries a format code,
geometry, bit depth, the end-of-page marker, and sample data addressed by
(x, y, channel index); the Frame type and its At accessor are declared
outside image.go.  The field At is the raw sample accessor; its Go return
type is uint16, which we embed in Frame.sample below. -/
structure Frame where
  Format : Nat
  Width : Int
  Height : Int
  Depth : Int
  IsLast : Bool
  At : Int → Int → Int → Nat

/-- Modelled from the spec: Frame.At returns a sample widened to a 16-bit
unsigned value regardless of depth (section 3); the uint16 return type is
embedded as a reduction mod 65536. -/
def Frame.sample (f : Frame) (x y ch : Int) : Nat :=
  f.At x y ch % 65536

/-- Image holds three frame pointers in fixed slot order (fs[0], fs[1],
fs[2] of image.go); a nil pointer is `none`. -/
structure Image where
  f0 : Option Frame
  f1 : Option Frame
  f2 : Option Frame

/-- Color values produced by the pixel decoder: color.RGBA, color.RGBA64,
color.Gray and color.Gray16 with their channel payloads (8- or 16-bit
unsigned numbers). -/
inductive Color where
  | rgba (r g b a : Nat)
  | rgba64 (r g b a : Nat)
  | gray (y : Nat)
  | gray16 (y : Nat)
  deriving DecidableEq, Repr

/-- Color models returned by Image.ColorModel: color.GrayModel,
color.Gray16Model, color.RGBAModel, color.RGBA64Model. -/
inductive Model where
  | grayModel
  | gray16Model
  | rgbaModel
  | rgba64Model
  deriving DecidableEq, Repr

/-- Bounds (image.go lines 26-29) dereferences the primary frame and
returns the rectangle (0, 0, Width, Height); we record the (Width, Height)
pair, and `none` models the nil dereference when slot 0 is empty. -/
def Image.Bounds (m : Image) : Option (Int × Int) :=
  match m.f0 with
  | none => none
  | some f => some (f.Width, f.Height)

/-- ColorModel (image.go lines 32-45): a switch on the primary frame's
Depth and Format; the final return color.RGBAModel on line 44 is the
fall-through for the (exhaustive) switch. -/
def Image.ColorModel (m : Image) : Option Model :=
  match m.f0 with
  | none => none
  | some f =>
    if f.Depth ≠ 16 ∧ f.Format = frameGray then some Model.grayModel
    else if f.Depth = 16 ∧ f.Format = frameGray then some Model.gray16Model
    else if f.Depth ≠ 16 ∧ f.Format ≠ frameGray then some Model.rgbaModel
    else if f.Depth = 16 ∧ f.Format ≠ frameGray then some Model.rgba64Model
    else some Model.rgbaModel

/-- Depth switch of the color path (image.go lines 76-84): depth 1 scales
each channel by 0xFF and truncates to uint8, depth 8 truncates to uint8,
depth 16 keeps the 16-bit channels; any other depth falls through to the
zero color of line 85.  Alpha is the fixed 0xff / 0xffff of lines 14-15.
Go computes 0xFF * r in uint16 and then casts to uint8; since 256 divides
65536 this equals reduction of the product mod 256. -/
def colorFromRGB (depth : Int) (r g b : Nat) : Color :=
  if depth = 1 then Color.rgba (255 * r % 256) (255 * g % 256) (255 * b % 256) 255
  else if depth = 8 then Color.rgba (r % 256) (g % 256) (b % 256) 255
  else if depth = 16 then Color.rgba64 r g b 65535
  else Color.rgba 0 0 0 0

/-- At (image.go lines 48-86): bounds check against the primary frame, then
the grayscale path (switch on depth, lines 54-61) or the color path: the
channel samples come from the primary frame at channel indices 0, 1, 2 when
the primary format is FrameRgb (lines 67-69), and otherwise from slots
0, 1, 2 each at channel index 0 (lines 72-74, dereferencing fs[1] and
fs[2]).  A `none` result models a nil-frame dereference. -/
def Image.At (m : Image) (x y : Int) : Option Color :=
  match m.f0 with
  | none => none
  | some f =>
    if x < 0 ∨ f.Width ≤ x ∨ y < 0 ∨ f.Height ≤ y then
      some (Color.rgba 0 0 0 0)
    else if f.Format = frameGray then
      if f.Depth = 1 then some (Color.gray (255 * f.sample x y 0 % 256))
      else if f.Depth = 8 then some (Color.gray (f.sample x y 0 % 256))
      else if f.Depth = 16 then some (Color.gray16 (f.sample x y 0))
      else some (Color.rgba 0 0 0 0)
    else
      match (if f.Format = frameRgb then
               some (f.sample x y 0, f.sample x y 1, f.sample x y 2)
             else
               match m.f1, m.f2 with
               | some g1, some g2 =>
                 some (f.sample x y 0, g1.sample x y 0, g2.sample x y 0)
               | _, _ => none) with
      | none => none
      | some (r, g, b) => some (colorFromRGB f.Depth r g b)

/-- Predicate picking out the five recognized frame format codes. -/
def recognized (n : Nat) : Prop :=
  n = frameGray ∨ n = frameRgb ∨ n = frameRed ∨ n = frameGreen ∨ n = frameBlue

instance (n : Nat) : Decidable (recognized n) := by
  unfold recognized
  infer_instance

/-- Frame classification step of the assembler (image.go lines 95-104):
Gray, Rgb and Red frames go to slot 0, Green to slot 1, Blue to slot 2, and
any other format code fails with the unknown-frame-format error. -/
def placeFrame (m : Image) (f : Frame) : Except Err Image :=
  if f.Format = frameGray ∨ f.Format = frameRgb ∨ f.Format = frameRed then
    Except.ok { m with f0 := some f }
  else if f.Format = frameGreen then
    Except.ok { m with f1 := some f }
  else if f.Format = frameBlue then
    Except.ok { m with f2 := some f }
  else
    Except.error (Err.unknownFrameFormat f.Format)

/-- Loop body of loadImage (image.go lines 90-108) over the list of pending
ReadFrame outcomes: a ReadFrame error is returned unchanged, a recognized
frame is slotted into the image, and the loop stops after the first frame
with IsLast.  The result carries the outcomes not yet consumed; `none`
models a ReadFrame call that never returns (exhausted outcome list). -/
def loadImageFrom (m : Image) :
    List (Except Err Frame) →
    Option (Except Err Image × List (Except Err Frame))
  | [] => none
  | Except.error e :: rest => some (Except.error e, rest)
  | Except.ok f :: rest =>
    match placeFrame m f with
    | Except.error e => some (Except.error e, rest)
    | Except.ok m2 =>
      if f.IsLast then some (Except.ok m2, rest) else loadImageFrom m2 rest

/-- Image value at entry to loadImage (image.go line 89): all three frame
pointers nil. -/
def emptyImage : Image :=
  { f0 := none, f1 := none, f2 := none }

/-- loadImage (image.go lines 88-110) starts from the empty Image. -/
def loadImage (s : List (Except Err Frame)) :
    Option (Except Err Image × List (Except Err Frame)) :=
  loadImageFrom emptyImage s

/-- ReadImage (image.go lines 113-116): one assembler call, result returned
verbatim.  The second component counts the Cancel calls the deferred
c.Cancel() performs: exactly one when the function returns, none when the
body never returns. -/
def ReadImage (s : List (Except Err Frame)) :
    Option (Except Err Image) × Nat :=
  match loadImage s with
  | none => (none, 0)
  | some (r, _) => (some r, 1)

/-- Loop of ReadAvailableImages (image.go lines 126-139): repeated
assembler calls accumulate images; an Empty failure with at least one image
collected ends the loop successfully, any other failure is returned and the
collected images discarded.  Structural recursion on a fuel argument; each
iteration consumes at least one ReadFrame outcome, so fuel exceeding the
outcome-list length never runs out before the list does. -/
def readAvailLoop :
    Nat → List (Except Err Frame) → List Image →
    Option (Except Err (List Image))
  | 0, _, _ => none
  | fuel + 1, s, images =>
    match loadImage s with
    | none => none
    | some (Except.error e, _) =>
      if e = Err.empty ∧ 0 < images.length then some (Except.ok images)
      else some (Except.error e)
    | some (Except.ok m, rest) => readAvailLoop fuel rest (images ++ [m])

/-- ReadAvailableImages (image.go lines 121-142), with the deferred Cancel
counted as in ReadImage. -/
def ReadAvailableImages (s : List (Except Err Frame)) :
    Option (Except Err (List Image)) × Nat :=
  match readAvailLoop (s.length + 1) s [] with
  | none => (none, 0)
  | some r => (some r, 1)

/-- Loop of ContinuousRead (image.go lines 158-170): process the current
image; a handler failure is returned at once, then the next image is
fetched, an Empty failure ending the loop successfully and any other
failure being returned.  The image list accumulates, in order, the pages
the handler was invoked on; fuel as in readAvailLoop. -/
def continuousLoop :
    Nat → (Image → Option Err) → Image → List (Except Err Frame) →
    List Image → Option (Option Err × List Image)
  | 0, _, _, _, _ => none
  | fuel + 1, pr, m, s, tr =>
    match pr m with
    | some e => some (some e, tr ++ [m])
    | none =>
      match loadImage s with
      | none => none
      | some (Except.error e, _) =>
        if e = Err.empty then some (none, tr ++ [m])
        else some (some e, tr ++ [m])
      | some (Except.ok m2, rest) => continuousLoop fuel pr m2 rest (tr ++ [m])

/-- ContinuousRead (image.go lines 146-172): a failure of the very first
fetch is returned immediately (handler never invoked), otherwise the loop
runs.  The result pairs the returned error (or `none` for a nil error
return) with the ordered list of pages passed to the handler; the Nat
counts the Cancel calls of the deferred c.Cancel() as in ReadImage. -/
def ContinuousRead (pr : Image → Option Err) (s : List (Except Err Frame)) :
    Option (Option Err × List Image) × Nat :=
  match loadImage s with
  | none => (none, 0)
  | some (Except.error e, _) => (some (some e, []), 1)
  | some (Except.ok m, rest) =>
    match continuousLoop (rest.length + 1) pr m rest [] with
    | none => (none, 0)
    | some r => (some r, 1)

/-- Pages s ms s2 holds when successive loadImage calls starting from
outcome list s assemble exactly the images ms and leave the outcome list
s2. -/
inductive Pages :
    List (Except Err Frame) → List Image → List (Except Err Frame) → Prop
  | nil (s : List (Except Err Frame)) : Pages s [] s
  | cons {s rest s2 : List (Except Err Frame)} {m : Image} {ms : List Image}
      (h : loadImage s = some (Except.ok m, rest))
      (hrec : Pages rest ms s2) : Pages s (m :: ms) s2

/-- Concrete one-pixel gray frame carrying the end-of-page marker, used as
witness input. -/
def grayLastFrame : Frame :=
  { Format := frameGray, Width := 1, Height := 1, Depth := 8, IsLast := true,
    At := fun _ _ _ => 0 }

lemma loadImageFrom_length :
    ∀ (s : List (Except Err Frame)) (m : Image) (r : Except Err Image)
      (rest : List (Except Err Frame)),
      loadImageFrom m s = some (r, rest) → rest.length < s.length := by
  intro s
  induction s with
  | nil =>
    intro m r rest h
    simp [loadImageFrom] at h
  | cons a t ih =>
    intro m r rest h
    cases a with
    | error e =>
      simp only [loadImageFrom, Option.some.injEq, Prod.mk.injEq] at h
      simp [← h.2]
    | ok f =>
      simp only [loadImageFrom] at h
      split at h
      · simp only [Option.some.injEq, Prod.mk.injEq] at h
        simp [← h.2]
      · split at h
        · simp only [Option.some.injEq, Prod.mk.injEq] at h
          simp [← h.2]
        · have := ih _ r rest h
          simp only [List.length_cons]
          omega

lemma loadImage_length {s : List (Except Err Frame)} {r : Except Err Image}
    {rest : List (Except Err Frame)}
    (h : loadImage s = some (r, rest)) : rest.length < s.length :=
  loadImageFrom_length s emptyImage r rest h

lemma readAvailLoop_step_ok {s rest : List (Except Err Frame)} {m : Image}
    (h : loadImage s = some (Except.ok m, rest)) (k : Nat) (images : List Image) :
    readAvailLoop (k + 1) s images = readAvailLoop k rest (images ++ [m]) := by
  simp [readAvailLoop, h]

lemma readAvailLoop_step_err {s rest : List (Except Err Frame)} {e : Err}
    (h : loadImage s = some (Except.error e, rest)) (k : Nat) (images : List Image) :
    readAvailLoop (k + 1) s images =
      if e = Err.empty ∧ 0 < images.length then some (Except.ok images)
      else some (Except.error e) := by
  simp [readAvailLoop, h]

lemma readAvailLoop_pages {s s2 : List (Except Err Frame)} {ms : List Image}
    (h : Pages s ms s2) {e : Err} {s3 : List (Except Err Frame)}
    (he : loadImage s2 = some (Except.error e, s3)) :
    ∀ (fuel : Nat) (images : List Image), s.length < fuel →
      readAvailLoop fuel s images =
        if e = Err.empty ∧ 0 < (images ++ ms).length then
          some (Except.ok (images ++ ms))
        else some (Except.error e) := by
  induction h with
  | nil s =>
    intro fuel images hf
    cases fuel with
    | zero => omega
    | succ k =>
      rw [readAvailLoop_step_err he]
      simp
  | cons hld hrec ih =>
    intro fuel images hf
    cases fuel with
    | zero => omega
    | succ k =>
      have hlen := loadImage_length hld
      rw [readAvailLoop_step_ok hld, ih he k _ (by omega)]
      simp

/-- C1: ReadAvailableImages accumulates the assembled images in order; when
the assembler yields a nonempty image sequence and then fails with Empty,
exactly those images are returned with no error; when the very first
assembler call fails with Empty, or any assembler call fails with a
non-Empty error, that error is returned and no images are returned. -/
theorem readAvailableImages_drain_spec :
    (∀ (s s2 s3 : List (Except Err Frame)) (ms : List Image),
      Pages s ms s2 → ms ≠ [] →
      loadImage s2 = some (Except.error Err.empty, s3) →
      (ReadAvailableImages s).1 = some (Except.ok ms)) ∧
    (∀ (s s3 : List (Except Err Frame)),
      loadImage s = some (Except.error Err.empty, s3) →
      (ReadAvailableImages s).1 = some (Except.error Err.empty)) ∧
    (∀ (s s2 s3 : List (Except Err Frame)) (ms : List Image) (e : Err),
      Pages s ms s2 → e ≠ Err.empty →
      loadImage s2 = some (Except.error e, s3) →
      (ReadAvailableImages s).1 = some (Except.error e)) := by
  refine ⟨?_, ?_, ?_⟩
  · intro s s2 s3 ms hp hne he
    simp only [ReadAvailableImages]
    rw [readAvailLoop_pages hp he (s.length + 1) [] (Nat.lt_succ_self _)]
    have : 0 < ms.length := List.length_pos.mpr hne
    simp [this]
  · intro s s3 he
    simp only [ReadAvailableImages]
    rw [readAvailLoop_pages (Pages.nil s) he (s.length + 1) [] (Nat.lt_succ_self _)]
    simp
  · intro s s2 s3 ms e hp hne he
    simp only [ReadAvailableImages]
    rw [readAvailLoop_pages hp he (s.length + 1) [] (Nat.lt_succ_self _)]
    simp [hne]

/-- Witness for C1: a feeder yielding one single-frame gray page and then
Empty makes ReadAvailableImages return exactly that page. -/
theorem readAvailableImages_drain_spec_witness :
    (ReadAvailableImages [Except.ok grayLastFrame, Except.error Err.empty]).1 =
      some (Except.ok [{ f0 := some grayLastFrame, f1 := none, f2 := none }]) :=
  readAvailableImages_drain_spec.1 _ [Except.error Err.empty] [] _
    (Pages.cons rfl (Pages.nil _)) (by simp) rfl

/-- C8: each of the three acquisition strategies performs the Cancel of its
deferred c.Cancel() exactly once whenever the call returns, on success and
on failure alike. -/
theorem strategies_cancel_once (s : List (Except Err Frame))
    (pr : Image → Option Err) :
    ((ReadImage s).1.isSome → (ReadImage s).2 = 1) ∧
    ((ReadAvailableImages s).1.isSome → (ReadAvailableImages s).2 = 1) ∧
    ((ContinuousRead pr s).1.isSome → (ContinuousRead pr s).2 = 1) := by
  refine ⟨?_, ?_, ?_⟩
  · simp only [ReadImage]
    split <;> simp
  · simp only [ReadAvailableImages]
    split <;> simp
  · simp only [ContinuousRead]
    split
    · simp
    · simp
    · split <;> simp

/-- Witness for C8: on a connection whose first read fails with Empty,
ReadAvailableImages cancels exactly once. -/
theorem strategies_cancel_once_witness :
    (ReadAvailableImages [Except.error Err.empty]).2 = 1 :=
  (strategies_cancel_once [Except.error Err.empty] (fun _ => none)).2.1
    (by decide)

lemma continuousLoop_step_fail {pr : Image → Option Err} {m : Image} {e : Err}
    (hp : pr m = some e) (k : Nat) (s : List (Except Err Frame)) (tr : List Image) :
    continuousLoop (k + 1) pr m s tr = some (some e, tr ++ [m]) := by
  simp [continuousLoop, hp]

lemma continuousLoop_step_err {pr : Image → Option Err} {m : Image}
    {s rest : List (Except Err Frame)} {e : Err} (hp : pr m = none)
    (h : loadImage s = some (Except.error e, rest)) (k : Nat) (tr : List Image) :
    continuousLoop (k + 1) pr m s tr =
      if e = Err.empty then some (none, tr ++ [m]) else some (some e, tr ++ [m]) := by
  simp [continuousLoop, hp, h]

lemma continuousLoop_step_ok {pr : Image → Option Err} {m m2 : Image}
    {s rest : List (Except Err Frame)} (hp : pr m = none)
    (h : loadImage s = some (Except.ok m2, rest)) (k : Nat) (tr : List Image) :
    continuousLoop (k + 1) pr m s tr = continuousLoop k pr m2 rest (tr ++ [m]) := by
  simp [continuousLoop, hp, h]

lemma continuousLoop_pages {pr : Image → Option Err}
    {s s2 : List (Except Err Frame)} {ms : List Image} (h : Pages s ms s2)
    {e : Err} {s3 : List (Except Err Frame)}
    (he : loadImage s2 = some (Except.error e, s3)) :
    ∀ (m : Image) (fuel : Nat) (tr : List Image),
      pr m = none → (∀ x ∈ ms, pr x = none) → s.length < fuel →
      continuousLoop fuel pr m s tr =
        if e = Err.empty then some (none, tr ++ m :: ms)
        else some (some e, tr ++ m :: ms) := by
  induction h with
  | nil s =>
    intro m fuel tr hm _ hf
    cases fuel with
    | zero => omega
    | succ k =>
      rw [continuousLoop_step_err hm he]
  | cons hld hrec ih =>
    intro m fuel tr hm hms hf
    cases fuel with
    | zero => omega
    | succ k =>
      have hlen := loadImage_length hld
      rw [continuousLoop_step_ok hm hld]
      rw [ih he _ k _ (hms _ (by simp)) (fun x hx => hms x (by simp [hx]))
        (by omega)]
      simp

lemma continuousLoop_handler_fail {pr : Image → Option Err}
    {s s2 : List (Except Err Frame)} {ms : List Image} (h : Pages s ms s2) :
    ∀ (ms1 ms2 : List Image) (mk : Image) (e : Err),
      ms = ms1 ++ mk :: ms2 →
      (∀ x ∈ ms1, pr x = none) → pr mk = some e →
      ∀ (m : Image) (fuel : Nat) (tr : List Image),
        pr m = none → s.length < fuel →
        continuousLoop fuel pr m s tr = some (some e, tr ++ m :: (ms1 ++ [mk])) := by
  induction h with
  | nil s =>
    intro ms1 ms2 mk e heq
    exact absurd heq (by simp)
  | cons hld hrec ih =>
    intro ms1 ms2 mk e heq hok hfail m fuel tr hm hf
    cases fuel with
    | zero => omega
    | succ k =>
      have hlen := loadImage_length hld
      rw [continuousLoop_step_ok hm hld]
      cases ms1 with
      | nil =>
        simp only [List.nil_append, List.cons.injEq] at heq
        obtain ⟨h1, h2⟩ := heq
        subst h1
        cases k with
        | zero => omega
        | succ j =>
          rw [continuousLoop_step_fail hfail]
          simp
      | cons a ms1t =>
        simp only [List.cons_append, List.cons.injEq] at heq
        obtain ⟨h1, h2⟩ := heq
        subst h1
        rw [ih ms1t ms2 mk e h2 (fun x hx => hok x (by simp [hx])) hfail _ k _
          (hok _ (by simp)) (by omega)]
        simp

lemma continuousRead_err {s s3 : List (Except Err Frame)} {e : Err}
    (h : loadImage s = some (Except.error e, s3)) (pr : Image → Option Err) :
    ContinuousRead pr s = (some (some e, []), 1) := by
  simp [ContinuousRead, h]

lemma continuousRead_ok {s rest : List (Except Err Frame)} {m : Image}
    (h : loadImage s = some (Except.ok m, rest)) (pr : Image → Option Err) :
    ContinuousRead pr s =
      match continuousLoop (rest.length + 1) pr m rest [] with
      | none => (none, 0)
      | some r => (some r, 1) := by
  simp [ContinuousRead, h]

/-- C2: ContinuousRead returns the failure of the very first fetch at once,
the handler never invoked; on a source yielding pages m :: ms and then
Empty with a handler succeeding on every page, the handler runs exactly
once per page in order and no error is returned; when the handler fails on
the k-th page the handler's error is returned, the handler having run only
on the first k pages; a non-Empty fetch failure after the first page is
propagated. -/
theorem continuousRead_spec (pr : Image → Option Err) :
    (∀ (s s3 : List (Except Err Frame)) (e : Err),
      loadImage s = some (Except.error e, s3) →
      (ContinuousRead pr s).1 = some (some e, [])) ∧
    (∀ (s rest s2 s3 : List (Except Err Frame)) (m : Image) (ms : List Image),
      loadImage s = some (Except.ok m, rest) → Pages rest ms s2 →
      loadImage s2 = some (Except.error Err.empty, s3) →
      pr m = none → (∀ x ∈ ms, pr x = none) →
      (ContinuousRead pr s).1 = some (none, m :: ms)) ∧
    (∀ (s rest s2 : List (Except Err Frame)) (m : Image)
       (ms ms1 ms2 : List Image) (mk : Image) (e : Err),
      loadImage s = some (Except.ok m, rest) → Pages rest ms s2 →
      m :: ms = ms1 ++ mk :: ms2 →
      (∀ x ∈ ms1, pr x = none) → pr mk = some e →
      (ContinuousRead pr s).1 = some (some e, ms1 ++ [mk])) ∧
    (∀ (s rest s2 s3 : List (Except Err Frame)) (m : Image) (ms : List Image)
       (e : Err),
      loadImage s = some (Except.ok m, rest) → Pages rest ms s2 →
      loadImage s2 = some (Except.error e, s3) → e ≠ Err.empty →
      pr m = none → (∀ x ∈ ms, pr x = none) →
      (ContinuousRead pr s).1 = some (some e, m :: ms)) := by
  refine ⟨?_, ?_, ?_, ?_⟩
  · intro s s3 e h
    rw [continuousRead_err h]
  · intro s rest s2 s3 m ms h hp he hm hms
    rw [continuousRead_ok h]
    rw [continuousLoop_pages hp he m (rest.length + 1) [] hm hms
      (Nat.lt_succ_self _)]
    simp
  · intro s rest s2 m ms ms1 ms2 mk e h hp heq hok hfail
    rw [continuousRead_ok h]
    cases ms1 with
    | nil =>
      simp only [List.nil_append, List.cons.injEq] at heq
      obtain ⟨h1, h2⟩ := heq
      subst h1
      rw [continuousLoop_step_fail hfail]
    | cons a ms1t =>
      simp only [List.cons_append, List.cons.injEq] at heq
      obtain ⟨h1, h2⟩ := heq
      subst h1
      rw [continuousLoop_handler_fail hp ms1t ms2 mk e h2
        (fun x hx => hok x (by simp [hx])) hfail m (rest.length + 1) []
        (hok _ (by simp)) (Nat.lt_succ_self _)]
      simp
  · intro s rest s2 s3 m ms e h hp he hne hm hms
    rw [continuousRead_ok h]
    rw [continuousLoop_pages hp he m (rest.length + 1) [] hm hms
      (Nat.lt_succ_self _)]
    simp [hne]

/-- Witness for C2: a one-page feeder followed by Empty, with a handler
that always succeeds, yields no error and a single handler invocation. -/
theorem continuousRead_spec_witness :
    (ContinuousRead (fun _ => none)
        [Except.ok grayLastFrame, Except.error Err.empty]).1 =
      some (none, [{ f0 := some grayLastFrame, f1 := none, f2 := none }]) :=
  (continuousRead_spec (fun _ => none)).2.1 _ [Except.error Err.empty] _ [] _ []
    rfl (Pages.nil _) rfl rfl (by simp)

/-- Concrete frame carrying the unrecognized format code 7, used as
counterexample and witness input. -/
def unknownFrame : Frame :=
  { Format := 7, Width := 1, Height := 1, Depth := 8, IsLast := false,
    At := fun _ _ _ => 0 }

lemma placeFrame_recognized {f : Frame} (h : recognized f.Format) (m : Image) :
    ∃ m2, placeFrame m f = Except.ok m2 := by
  unfold placeFrame
  rcases h with h | h | h | h | h <;> rw [h] <;>
    simp [frameGray, frameRgb, frameRed, frameGreen, frameBlue]

lemma loadImageFrom_append :
    ∀ (pre : List (Except Err Frame)),
      (∀ r ∈ pre, ∃ g, r = Except.ok g ∧ recognized g.Format ∧
        g.IsLast = false) →
      ∀ (m : Image) (rest : List (Except Err Frame)),
        ∃ m2, loadImageFrom m (pre ++ rest) = loadImageFrom m2 rest := by
  intro pre
  induction pre with
  | nil =>
    intro _ m rest
    exact ⟨m, rfl⟩
  | cons a t ih =>
    intro hpre m rest
    obtain ⟨g, hg, hrec, hlast⟩ := hpre a (by simp)
    subst hg
    obtain ⟨m2, hm2⟩ := placeFrame_recognized hrec m
    obtain ⟨m3, hm3⟩ := ih (fun r hr => hpre r (by simp [hr])) m2 rest
    refine ⟨m3, ?_⟩
    rw [List.cons_append]
    simp only [loadImageFrom, hm2, hlast]
    exact hm3

/-- C4: a frame with an unrecognized format code, arriving before any
end-of-page frame, makes the assembler fail at once with the
unknown-frame-format error carrying that code, the later outcomes left
unread and no Image returned. -/
theorem loadImage_unknown_format (pre : List (Except Err Frame)) (f : Frame)
    (post : List (Except Err Frame))
    (hpre : ∀ r ∈ pre, ∃ g, r = Except.ok g ∧ recognized g.Format ∧
      g.IsLast = false)
    (hf : ¬ recognized f.Format) :
    loadImage (pre ++ Except.ok f :: post) =
      some (Except.error (Err.unknownFrameFormat f.Format), post) := by
  obtain ⟨m2, hm2⟩ :=
    loadImageFrom_append pre hpre emptyImage (Except.ok f :: post)
  unfold loadImage
  rw [hm2]
  have hpf : placeFrame m2 f =
      Except.error (Err.unknownFrameFormat f.Format) := by
    unfold recognized at hf
    push_neg at hf
    simp [placeFrame, hf.1, hf.2.1, hf.2.2.1, hf.2.2.2.1, hf.2.2.2.2]
  simp [loadImageFrom, hpf]

/-- Witness for C4: a stream opening with a format-7 frame fails with the
unknown-frame-format error for code 7. -/
theorem loadImage_unknown_format_witness :
    loadImage [Except.ok unknownFrame] =
      some (Except.error (Err.unknownFrameFormat 7), []) :=
  loadImage_unknown_format [] unknownFrame [] (by simp) (by decide)

/-- Counterexample to C9 as stated: a stream with no ReadFrame failure that
does deliver an end-of-page frame, on which the assembler neither returns
an assembled Image having consumed through that frame nor propagates a
ReadFrame error (there is none to propagate): the unrecognized leading
frame makes it fail with the unknown-frame-format error instead. -/
theorem loadImage_terminates_counterexample :
    unknownFrame.IsLast = false ∧
    grayLastFrame.IsLast = true ∧
    loadImage [Except.ok unknownFrame, Except.ok grayLastFrame] =
      some (Except.error (Err.unknownFrameFormat 7),
        [Except.ok grayLastFrame]) ∧
    (Except.error (Err.unknownFrameFormat 7) : Except Err Frame) ∉
      [Except.ok unknownFrame, Except.ok grayLastFrame] := by
  exact ⟨rfl, rfl, rfl, by simp⟩

/-- C9 (amended): on a stream whose frames all carry recognized formats up
to the point of interest, the assembler terminates, consuming frames
exactly up to and including the first end-of-page frame and returning the
assembled Image, and a ReadFrame failure arriving first is returned as the
very same error value, unwrapped, so an Empty condition reaches the
acquisition strategies as the distinct Empty value. -/
theorem loadImage_terminates_amended :
    (∀ (pre post : List (Except Err Frame)) (e : Err),
      (∀ r ∈ pre, ∃ g, r = Except.ok g ∧ recognized g.Format ∧
        g.IsLast = false) →
      loadImage (pre ++ Except.error e :: post) =
        some (Except.error e, post)) ∧
    (∀ (pre post : List (Except Err Frame)) (f : Frame),
      (∀ r ∈ pre, ∃ g, r = Except.ok g ∧ recognized g.Format ∧
        g.IsLast = false) →
      recognized f.Format → f.IsLast = true →
      ∃ m, loadImage (pre ++ Except.ok f :: post) =
        some (Except.ok m, post)) := by
  constructor
  · intro pre post e hpre
    obtain ⟨m2, hm2⟩ :=
      loadImageFrom_append pre hpre emptyImage (Except.error e :: post)
    unfold loadImage
    rw [hm2]
    rfl
  · intro pre post f hpre hrec hlast
    obtain ⟨m2, hm2⟩ :=
      loadImageFrom_append pre hpre emptyImage (Except.ok f :: post)
    obtain ⟨m3, hm3⟩ := placeFrame_recognized hrec m2
    refine ⟨m3, ?_⟩
    unfold loadImage
    rw [hm2]
    simp [loadImageFrom, hm3, hlast]

/-- Witness for the amended C9: a single recognized end-of-page frame
assembles successfully with the whole stream consumed. -/
theorem loadImage_terminates_amended_witness :
    ∃ m, loadImage [Except.ok grayLastFrame] = some (Except.ok m, []) :=
  loadImage_terminates_amended.2 [] [] grayLastFrame (by simp)
    (Or.inl rfl) rfl

/-- C5: ColorModel is derived purely from the primary frame's format and
depth following the four-row table: Gray with depth other than 16 gives the
8-bit grayscale model, Gray at depth 16 the 16-bit grayscale model, any
non-Gray format with depth other than 16 the 8-bit RGB model, and non-Gray
at depth 16 the 16-bit RGB model. -/
theorem colorModel_table (m : Image) (f : Frame) (h : m.f0 = some f) :
    (f.Format = frameGray → f.Depth ≠ 16 →
      m.ColorModel = some Model.grayModel) ∧
    (f.Format = frameGray → f.Depth = 16 →
      m.ColorModel = some Model.gray16Model) ∧
    (f.Format ≠ frameGray → f.Depth ≠ 16 →
      m.ColorModel = some Model.rgbaModel) ∧
    (f.Format ≠ frameGray → f.Depth = 16 →
      m.ColorModel = some Model.rgba64Model) := by
  refine ⟨?_, ?_, ?_, ?_⟩ <;> intro h1 h2 <;>
    simp [Image.ColorModel, h, h1, h2]

/-- Witness for C5: a gray frame at depth 8 gives the 8-bit grayscale
model. -/
theorem colorModel_table_witness :
    Image.ColorModel { f0 := some grayLastFrame, f1 := none, f2 := none } =
      some Model.grayModel :=
  (colorModel_table _ grayLastFrame rfl).1 rfl (by decide)

/-- C6: grayscale decoding takes the raw sample of the primary frame at
channel 0: at depth 1 it is scaled by 0xFF (giving 0 or 255 for the 1-bit
samples 0 and 1), at depth 8 it is used directly as an 8-bit gray value,
and at depth 16 directly as a 16-bit gray value. -/
theorem grayscale_pixel (m : Image) (f : Frame) (x y : Int)
    (h : m.f0 = some f) (hfmt : f.Format = frameGray)
    (hx0 : 0 ≤ x) (hx1 : x < f.Width) (hy0 : 0 ≤ y) (hy1 : y < f.Height) :
    (f.Depth = 1 → f.sample x y 0 ≤ 1 →
      m.At x y = some (Color.gray (255 * f.sample x y 0))) ∧
    (f.Depth = 8 → f.sample x y 0 < 256 →
      m.At x y = some (Color.gray (f.sample x y 0))) ∧
    (f.Depth = 16 → m.At x y = some (Color.gray16 (f.sample x y 0))) := by
  have hb : ¬ (x < 0 ∨ f.Width ≤ x ∨ y < 0 ∨ f.Height ≤ y) := by omega
  refine ⟨?_, ?_, ?_⟩ <;> intro hd
  · intro hs
    simp only [Image.At, h, hb, if_false, hfmt, if_true, hd, if_pos rfl,
      reduceIte]
    rw [Nat.mod_eq_of_lt (by omega)]
  · intro hs
    simp only [Image.At, h, hb, if_false, hfmt, hd]
    norm_num
    omega
  · simp only [Image.At, h, hb, if_false, hfmt, hd]
    norm_num

/-- Witness for C6: the one-pixel depth-8 gray frame decodes pixel (0,0)
to its raw sample 0. -/
theorem grayscale_pixel_witness :
    Image.At { f0 := some grayLastFrame, f1 := none, f2 := none } 0 0 =
      some (Color.gray (grayLastFrame.sample 0 0 0)) :=
  (grayscale_pixel _ grayLastFrame 0 0 rfl rfl (by decide) (by decide)
    (by decide) (by decide)).2.1 rfl (by decide)

/-- C7: pixel access outside the primary frame's rectangle returns the
fully-transparent zero color for every format and depth, and a depth value
outside 1, 8 and 16 likewise produces the zero color at every coordinate
(given the frame slots the image's format makes the decoder read). -/
theorem pixel_default_zero (m : Image) (f : Frame) (h : m.f0 = some f) :
    (∀ x y : Int, (x < 0 ∨ f.Width ≤ x ∨ y < 0 ∨ f.Height ≤ y) →
      m.At x y = some (Color.rgba 0 0 0 0)) ∧
    (∀ x y : Int, f.Depth ≠ 1 → f.Depth ≠ 8 → f.Depth ≠ 16 →
      (f.Format = frameGray ∨ f.Format = frameRgb ∨
        ((m.f1).isSome ∧ (m.f2).isSome)) →
      m.At x y = some (Color.rgba 0 0 0 0)) := by
  constructor
  · intro x y hb
    simp [Image.At, h, hb]
  · intro x y h1 h8 h16 hslots
    by_cases hb : x < 0 ∨ f.Width ≤ x ∨ y < 0 ∨ f.Height ≤ y
    · simp [Image.At, h, hb]
    · rcases hslots with hfmt | hfmt | ⟨hs1, hs2⟩
      · simp [Image.At, h, hb, hfmt, h1, h8, h16]
      · have hfg : f.Format ≠ frameGray := by
          rw [hfmt]
          decide
        simp [Image.At, h, hb, hfmt, hfg, h1, h8, h16, colorFromRGB]
      · obtain ⟨g1, hg1⟩ := Option.isSome_iff_exists.mp hs1
        obtain ⟨g2, hg2⟩ := Option.isSome_iff_exists.mp hs2
        by_cases hfg : f.Format = frameGray
        · simp [Image.At, h, hb, hfg, h1, h8, h16]
        · by_cases hfr : f.Format = frameRgb
          · simp [Image.At, h, hb, hfr, hfg, h1, h8, h16, colorFromRGB]
          · simp [Image.At, h, hb, hfg, hfr, hg1, hg2, h1, h8, h16,
              colorFromRGB]

/-- Witness for C7: access at (-1, 0) on the one-pixel gray image returns
the zero color. -/
theorem pixel_default_zero_witness :
    Image.At { f0 := some grayLastFrame, f1 := none, f2 := none } (-1) 0 =
      some (Color.rgba 0 0 0 0) :=
  (pixel_default_zero _ grayLastFrame rfl).1 (-1) 0 (by decide)

/-- C3: with an interleaved Rgb primary frame the decoder draws red, green
and blue from the primary frame at channel indices 0, 1, 2; with a planar
Red primary it draws them from slots 0, 1, 2, each at channel index 0 of
its own frame; an interleaved image and a three-plane image whose
per-channel samples agree pointwise therefore decode identically at every
in-bounds coordinate and share the color model. -/
theorem color_layout_equiv (m1 m2 : Image) (f1 fr fg fb : Frame)
    (h1 : m1.f0 = some f1) (hf1 : f1.Format = frameRgb)
    (h2 : m2.f0 = some fr) (h3 : m2.f1 = some fg) (h4 : m2.f2 = some fb)
    (hfr : fr.Format = frameRed)
    (hw : fr.Width = f1.Width) (hh : fr.Height = f1.Height)
    (hd : fr.Depth = f1.Depth)
    (hsr : ∀ x y : Int, fr.sample x y 0 = f1.sample x y 0)
    (hsg : ∀ x y : Int, fg.sample x y 0 = f1.sample x y 1)
    (hsb : ∀ x y : Int, fb.sample x y 0 = f1.sample x y 2) :
    (∀ x y : Int, 0 ≤ x → x < f1.Width → 0 ≤ y → y < f1.Height →
      m1.At x y = some (colorFromRGB f1.Depth (f1.sample x y 0)
        (f1.sample x y 1) (f1.sample x y 2)) ∧
      m2.At x y = some (colorFromRGB f1.Depth (f1.sample x y 0)
        (f1.sample x y 1) (f1.sample x y 2)) ∧
      m1.At x y = m2.At x y) ∧
    m1.ColorModel = m2.ColorModel := by
  have hg1 : f1.Format ≠ frameGray := by
    rw [hf1]
    decide
  have hg2 : fr.Format ≠ frameGray := by
    rw [hfr]
    decide
  have hr2 : fr.Format ≠ frameRgb := by
    rw [hfr]
    decide
  constructor
  · intro x y hx0 hx1 hy0 hy1
    have hb : ¬ (x < 0 ∨ f1.Width ≤ x ∨ y < 0 ∨ f1.Height ≤ y) := by omega
    have hb2 : ¬ (x < 0 ∨ fr.Width ≤ x ∨ y < 0 ∨ fr.Height ≤ y) := by
      rw [hw, hh]
      exact hb
    have e1 : m1.At x y = some (colorFromRGB f1.Depth (f1.sample x y 0)
        (f1.sample x y 1) (f1.sample x y 2)) := by
      simp [Image.At, h1, hb, hf1, frameRgb, frameGray]
    have e2 : m2.At x y = some (colorFromRGB f1.Depth (f1.sample x y 0)
        (f1.sample x y 1) (f1.sample x y 2)) := by
      simp [Image.At, h2, h3, h4, hb2, hfr, hd, hsr, hsg, hsb, frameRed,
        frameGray, frameRgb]
    exact ⟨e1, e2, e1.trans e2.symm⟩
  · simp only [Image.ColorModel, h1, h2, hg1, hg2, hd]
    by_cases hdep : f1.Depth = 16 <;> simp [hdep, hg1, hg2]

/-- Concrete interleaved Rgb frame with all channel samples 5, witness
input for the layout equivalence. -/
def rgbSampleFrame : Frame :=
  { Format := frameRgb, Width := 1, Height := 1, Depth := 8, IsLast := true,
    At := fun _ _ _ => 5 }

/-- Concrete planar Red frame with samples 5, witness input. -/
def redSampleFrame : Frame :=
  { Format := frameRed, Width := 1, Height := 1, Depth := 8, IsLast := false,
    At := fun _ _ _ => 5 }

/-- Concrete planar Green frame with samples 5, witness input. -/
def greenSampleFrame : Frame :=
  { Format := frameGreen, Width := 1, Height := 1, Depth := 8,
    IsLast := false, At := fun _ _ _ => 5 }

/-- Concrete planar Blue frame with samples 5, witness input. -/
def blueSampleFrame : Frame :=
  { Format := frameBlue, Width := 1, Height := 1, Depth := 8, IsLast := true,
    At := fun _ _ _ => 5 }

/-- One-pixel interleaved image, witness input. -/
def interleavedImage : Image :=
  { f0 := some rgbSampleFrame, f1 := none, f2 := none }

/-- One-pixel three-plane image with the same samples, witness input. -/
def planarImage : Image :=
  { f0 := some redSampleFrame, f1 := some greenSampleFrame,
    f2 := some blueSampleFrame }

/-- Witness for C3: the one-pixel interleaved image and the one-pixel
three-plane image with equal samples decode (0,0) identically. -/
theorem color_layout_equiv_witness :
    Image.At interleavedImage 0 0 = Image.At planarImage 0 0 :=
  ((color_layout_equiv interleavedImage planarImage rgbSampleFrame
    redSampleFrame greenSampleFrame blueSampleFrame rfl rfl rfl rfl rfl rfl
    rfl rfl rfl (fun _ _ => rfl) (fun _ _ => rfl) (fun _ _ => rfl)).1 0 0
    (by decide) (by decide) (by decide) (by decide)).2.2

/-- Concrete Green frame carrying the end-of-page marker, witness input
for the missing-validation claim. -/
def greenLastFrame : Frame :=
  { Format := frameGreen, Width := 1, Height := 1, Depth := 8,
    IsLast := true, At := fun _ _ _ => 0 }

/-- C10: the assembler checks no channel-set invariant: a stream whose
only frame is a Green or Blue end-of-page frame assembles successfully
into an Image whose primary slot was never filled, and Bounds, ColorModel
and At on that Image dereference the absent primary frame (modelled as the
undefined result none) instead of returning a value. -/
theorem loadImage_no_channel_validation (f : Frame) (hl : f.IsLast = true) :
    (f.Format = frameGreen →
      loadImage [Except.ok f] =
        some (Except.ok { f0 := none, f1 := some f, f2 := none }, []) ∧
      Image.Bounds { f0 := none, f1 := some f, f2 := none } = none ∧
      Image.ColorModel { f0 := none, f1 := some f, f2 := none } = none ∧
      Image.At { f0 := none, f1 := some f, f2 := none } 0 0 = none) ∧
    (f.Format = frameBlue →
      loadImage [Except.ok f] =
        some (Except.ok { f0 := none, f1 := none, f2 := some f }, []) ∧
      Image.Bounds { f0 := none, f1 := none, f2 := some f } = none ∧
      Image.ColorModel { f0 := none, f1 := none, f2 := some f } = none ∧
      Image.At { f0 := none, f1 := none, f2 := some f } 0 0 = none) := by
  constructor <;> intro hfmt <;> refine ⟨?_, rfl, rfl, rfl⟩ <;>
    simp [loadImage, loadImageFrom, placeFrame, emptyImage, hfmt, hl,
      frameGray, frameRgb, frameRed, frameGreen, frameBlue]

/-- Witness for C10: the lone Green end-of-page frame leaves the primary
slot empty and pixel access on the result is undefined. -/
theorem loadImage_no_channel_validation_witness :
    Image.At { f0 := none, f1 := some greenLastFrame, f2 := none } 0 0 =
      none :=
  ((loadImage_no_channel_validation greenLastFrame rfl).1 rfl).2.2.2

end Sane
